import Mathlib

/-!
Verification of the Utrecht open-data repository's core: the keyword/topic
analysis pipeline of `woo_connector.py` (class `WooConnector`) and the
JSON-RPC dispatch layer of `mcp_server.py` (class `MCPServer`).

The Python code is shallowly embedded as executable Lean functions.
Python sets are represented as duplicate-free lists in a canonical
first-insertion order (Python set iteration order is implementation
defined; every property proved below is insensitive to that choice).
Python strings are Lean `String`s; case mapping is modelled on ASCII
letters (the only case-sensitive data in the program is ASCII), and the
regex word class `\w` is modelled as ASCII alphanumerics, underscore,
and every non-ASCII character (which covers the accented Dutch letters
appearing in the vocabulary tables).
-/

namespace UtrechtOD

/-- `chStarts n h`: the char list `n` is a prefix of `h` (Python `startswith`). -/
def chStarts : List Char → List Char → Bool
  | [], _ => true
  | _ :: _, [] => false
  | a :: as, b :: bs => a == b && chStarts as bs

/-- `chSub n h`: the char list `n` occurs contiguously inside `h`. -/
def chSub (n : List Char) : List Char → Bool
  | [] => n.isEmpty
  | b :: bs => chStarts n (b :: bs) || chSub n bs

/-- Python's `needle in hay` substring test on strings. -/
def substrOf (needle hay : String) : Bool := chSub needle.toList hay.toList

/-- Python `str.lower`, modelled as per-character ASCII lowercasing. -/
def lowerStr (s : String) : String := String.mk (s.toList.map Char.toLower)

/-- The regex word class `\w`: alphanumerics, underscore, and (as a model of
Unicode word characters) every non-ASCII character. -/
def isWordChar (c : Char) : Bool := c.isAlphanum || c == '_' || decide (128 ≤ c.toNat)

/-- Worker for `tokenize`: scans the remaining characters, carrying the
current (reversed) in-progress word token. -/
def tokensAux : List Char → List Char → List String
  | [], cur => if cur.isEmpty then [] else [String.mk cur.reverse]
  | c :: rest, cur =>
    if isWordChar c then tokensAux rest (c :: cur)
    else if cur.isEmpty then tokensAux rest []
    else String.mk cur.reverse :: tokensAux rest []

/-- `re.findall(r'\b\w+\b', s)`: the maximal runs of word characters of `s`,
in order of occurrence. -/
def tokenize (s : String) : List String := tokensAux s.toList []

/-- Worker for `dedupFirst`, carrying the set of elements already emitted. -/
def dedupAux {α : Type} [DecidableEq α] : List α → List α → List α
  | [], _ => []
  | x :: xs, seen => if x ∈ seen then dedupAux xs seen else x :: dedupAux xs (x :: seen)

/-- Keep the first occurrence of every element, dropping later duplicates
(Python `dict.fromkeys` / set-comprehension order canonicalisation). -/
def dedupFirst {α : Type} [DecidableEq α] (l : List α) : List α := dedupAux l []

/-- Insert `x` into `l` in front of the first element `y` with `le x y`;
used by `sortBy`. -/
def insertBy {α : Type} (le : α → α → Bool) (x : α) : List α → List α
  | [] => [x]
  | y :: ys => if le x y then x :: y :: ys else y :: insertBy le x ys

/-- Stable insertion sort with respect to the boolean preorder `le`
(equal elements keep their input order), modelling Python's stable
`sorted` / `list.sort`. -/
def sortBy {α : Type} (le : α → α → Bool) : List α → List α
  | [] => []
  | x :: xs => insertBy le x (sortBy le xs)

/-- Add an element to a duplicate-free accumulator list (no-op when present):
one step of Python `set.update`. -/
def insertNew (acc : List String) (t : String) : List String :=
  if t ∈ acc then acc else acc ++ [t]

/-- Python `set.update`: union the elements of `l` into the accumulator,
preserving first-insertion order. -/
def unionInto (acc l : List String) : List String := l.foldl insertNew acc

/-- A JSON-ish attribute value as stored in a record's `attributes` mapping:
a string, a list of strings (the `keyword` field), or Python `None`. -/
inductive Val where
  | str (s : String)
  | list (l : List String)
  | null
deriving DecidableEq

/-- Python truthiness of an attribute value (`None`, `""` and `[]` are falsy). -/
def truthy : Val → Bool
  | .str s => !s.isEmpty
  | .list l => !l.isEmpty
  | .null => false

/-- A Python dict from string keys to attribute values. -/
abbrev Obj : Type := List (String × Val)

/-- Python `obj.get(k)`: the stored value, or `None` when the key is absent. -/
def objGet (o : Obj) (k : String) : Val := (List.lookup k o).getD Val.null

/-- Python `k in obj`: key presence. -/
def containsKey (o : Obj) (k : String) : Bool := (List.lookup k o).isSome

/-- `WooConnector._get_attr` (woo_connector.py:215-217):
`obj.get(f"dct:{key}") or obj.get(f"dcat:{key}") or obj.get(key)` —
truthiness-chained lookup over `dct:`, `dcat:` and the bare key. -/
def wooGetAttr (o : Obj) (k : String) : Val :=
  let a := objGet o ("dct:" ++ k)
  if truthy a then a
  else
    let b := objGet o ("dcat:" ++ k)
    if truthy b then b
    else objGet o k

/-- `MCPServer.get_attr` (mcp_server.py:368-378): presence-tested lookup over
`dct:`, `dcat:`, `foaf:` and the bare key, returning `None` when all are absent. -/
def mcpGetAttr (o : Obj) (k : String) : Val :=
  if containsKey o ("dct:" ++ k) then objGet o ("dct:" ++ k)
  else if containsKey o ("dcat:" ++ k) then objGet o ("dcat:" ++ k)
  else if containsKey o ("foaf:" ++ k) then objGet o ("foaf:" ++ k)
  else if containsKey o k then objGet o k
  else Val.null

/-- Modelled from the spec (section 4.1 Attribute Resolver), for comparison
with the two resolvers in the code: try `"dct:"+key`, `"dcat:"+key`,
`"foaf:"+key`, then the bare key, and return the value of the first key
that is PRESENT (a present null or empty value is returned, not skipped);
absence of all four keys is signalled by the `null` sentinel. -/
def resolveSpec (o : Obj) (k : String) : Val :=
  if containsKey o ("dct:" ++ k) then objGet o ("dct:" ++ k)
  else if containsKey o ("dcat:" ++ k) then objGet o ("dcat:" ++ k)
  else if containsKey o ("foaf:" ++ k) then objGet o ("foaf:" ++ k)
  else if containsKey o k then objGet o k
  else Val.null

/-- `"\x27"`: a single-quote character, as produced by Python `repr`/`str`. -/
def quoteS (s : String) : String := "\x27" ++ s ++ "\x27"

/-- Python `str(v)` as used inside an f-string for an attribute value. -/
def valText : Val → String
  | .str s => s
  | .list l => "[" ++ String.intercalate ", " (l.map quoteS) ++ "]"
  | .null => "None"

/-- Python `' '.join(v)` for the keyword attribute (joining a string joins
its characters). -/
def joinSp : Val → String
  | .str s => String.intercalate " " (s.toList.map fun c => String.mk [c])
  | .list l => String.intercalate " " l
  | .null => ""

/-- The fixed Dutch stopword set of `WooConnector.extract_keywords`
(woo_connector.py:91-96). -/
def stopwords : List String :=
  ["de", "het", "een", "van", "in", "op", "voor", "met", "aan",
   "uit", "en", "of", "maar", "is", "zijn", "was", "waren",
   "deze", "dit", "die", "dat", "door", "naar", "bij", "om",
   "te", "tot", "over", "onder", "tussen", "na", "als", "dan"]

/-- `WooConnector.TOPIC_MAPPING` (woo_connector.py:39-72): static mapping
from anchor keywords to Woo topic lists. -/
def TOPIC_MAPPING : List (String × List String) :=
  [("afval", ["milieu", "openbare ruimte", "beheer", "huisvesting"]),
   ("parkeren", ["verkeer", "mobiliteit", "openbare ruimte", "handhaving"]),
   ("verkeer", ["mobiliteit", "infrastructuur", "veiligheid", "openbare ruimte"]),
   ("bus", ["openbaar vervoer", "mobiliteit", "infrastructuur"]),
   ("fiets", ["mobiliteit", "infrastructuur", "openbare ruimte"]),
   ("straat", ["openbare ruimte", "beheer", "infrastructuur"]),
   ("woning", ["huisvesting", "ruimtelijke ordening", "bouw"]),
   ("bouw", ["ruimtelijke ordening", "vergunningen", "handhaving"]),
   ("jeugd", ["jeugdzorg", "welzijn", "onderwijs", "zorg"]),
   ("zorg", ["gezondheidszorg", "welzijn", "sociaal domein"]),
   ("onderwijs", ["educatie", "jeugd", "cultuur"]),
   ("werk", ["arbeidsmarkt", "economie", "sociale zaken"]),
   ("milieu", ["duurzaamheid", "klimaat", "natuur"]),
   ("energie", ["duurzaamheid", "klimaat", "milieu"]),
   ("water", ["waterbeheer", "milieu", "infrastructuur"]),
   ("groen", ["natuur", "openbare ruimte", "milieu"]),
   ("veiligheid", ["openbare orde", "handhaving", "politie"]),
   ("criminaliteit", ["veiligheid", "politie", "handhaving"]),
   ("overlast", ["openbare orde", "handhaving", "veiligheid"]),
   ("subsidie", ["financiën", "beleid", "ondersteuning"]),
   ("beleid", ["bestuur", "regelgeving", "strategie"]),
   ("financiën", ["begroting", "subsidie", "economie"]),
   ("vergunning", ["handhaving", "regelgeving", "bouw"])]

/-- The union of all topic lists of `TOPIC_MAPPING`: the closed topic
vocabulary. -/
def allWooTopics : List String := (TOPIC_MAPPING.map (·.2)).flatten

/-- `WooConnector.WOO_CATEGORIES` (woo_connector.py:25-36). -/
def wooCategories : List (String × String) :=
  [("1a", "Convenanten"),
   ("1b", "Jaarplannen en jaarverslagen"),
   ("1c", "Onderzoeksrapporten"),
   ("1d", "Adviezen van adviescolleges"),
   ("1e", "Beschikkingen over aanvragen om een subsidie"),
   ("1f", "Beschikkingen Wob-verzoeken"),
   ("1g", "Beschikkingen Woo-verzoeken"),
   ("2", "Vergaderstukken bestuursorganen"),
   ("3", "Bestuurlijke besluiten"),
   ("4", "Regelingen en beleidsnota\x27s")]

/-- Display name of a Woo category id (`self.WOO_CATEGORIES[cat_id]`). -/
def catName (cid : String) : String := (List.lookup cid wooCategories).getD ""

/-- The `category_keywords` trigger table of
`WooConnector._suggest_woo_categories` (woo_connector.py:152-163). -/
def categoryKeywords : List (String × List String) :=
  [("1a", ["convenant", "overeenkomst", "samenwerkings"]),
   ("1b", ["jaarplan", "jaarverslag", "begroting"]),
   ("1c", ["onderzoek", "rapport", "evaluatie", "studie"]),
   ("1d", ["advies", "aanbeveling", "commissie"]),
   ("1e", ["subsidie", "financiering", "ondersteuning"]),
   ("1f", ["wob", "openbaarmaking"]),
   ("1g", ["woo", "openbaarmaking"]),
   ("2", ["vergader", "raad", "commissie", "besluit"]),
   ("3", ["besluit", "beschikking", "verordening"]),
   ("4", ["beleid", "regeling", "verordening", "nota"])]

/-- `WooConnector.extract_keywords` (woo_connector.py:82-99): lowercase,
split into word tokens, keep tokens of length > 3 that are not stopwords.
The resulting Python set is represented as a duplicate-free list in first
occurrence order. -/
def extract_keywords (text : String) : List String :=
  if text = "" then []
  else dedupFirst ((tokenize (lowerStr text)).filter fun w =>
    decide (3 < w.length) && decide (w ∉ stopwords))

/-- The bidirectional substring test of `WooConnector.map_to_topics`
(`key in keyword or keyword in key`). -/
def matchKey (kw anchor : String) : Bool := substrOf anchor kw || substrOf kw anchor

/-- One inner-loop step of `WooConnector.map_to_topics`: union the topic list
of a matching table entry into the accumulated topic set. -/
def topicStep (kw : String) (acc : List String) (e : String × List String) : List String :=
  if matchKey kw e.1 then unionInto acc e.2 else acc

/-- `WooConnector.map_to_topics` (woo_connector.py:101-111). -/
def map_to_topics (keywords : List String) : List String :=
  keywords.foldl (fun acc kw => TOPIC_MAPPING.foldl (topicStep kw) acc) []

/-- One `_suggest_woo_categories` output entry: `{category, name, reason}`. -/
structure Suggestion where
  category : String
  name : String
  reason : String
deriving DecidableEq

/-- The keyword-anchored pass of `WooConnector._suggest_woo_categories`
(woo_connector.py:165-173): for each category, the first keyword containing
one of the category's trigger substrings yields one suggestion. -/
def keywordPass (keywords : List String) : List Suggestion :=
  categoryKeywords.filterMap fun e =>
    (keywords.find? fun kw => e.2.any fun ck => substrOf ck kw).map fun kw =>
      ⟨e.1, catName e.1, "Bevat keyword: " ++ kw⟩

/-- The topic-anchored pass of `WooConnector._suggest_woo_categories`
(woo_connector.py:176-188): two hardcoded rules for categories "4" and "1e". -/
def topicPass (topics : List String) : List Suggestion :=
  (if ["beleid", "regelgeving", "bestuur"].any (fun t => decide (t ∈ topics)) then
    [⟨"4", catName "4", "Gerelateerd aan beleid en regelgeving"⟩] else []) ++
  (if ["subsidie", "financiën"].any (fun t => decide (t ∈ topics)) then
    [⟨"1e", catName "1e", "Gerelateerd aan subsidies"⟩] else [])

/-- The final dedup loop of `_suggest_woo_categories` (woo_connector.py:190-197):
keep the first suggestion seen for each category id. -/
def dedupCatAux : List Suggestion → List String → List Suggestion
  | [], _ => []
  | s :: rest, seen =>
    if s.category ∈ seen then dedupCatAux rest seen
    else s :: dedupCatAux rest (s.category :: seen)

/-- `WooConnector._suggest_woo_categories` (woo_connector.py:147-199). -/
def suggest_woo_categories (keywords topics : List String) : List Suggestion :=
  dedupCatAux (keywordPass keywords ++ topicPass topics) []

/-- Comparator of `sorted(keywords, key=len, reverse=True)`: length
descending; with the stable `sortBy`, ties keep enumeration order. -/
def lenGe (a b : String) : Bool := decide (b.length ≤ a.length)

/-- `WooConnector._generate_search_terms` (woo_connector.py:201-213):
the 5 longest keywords, then up to 3 topics, deduplicated preserving
first-occurrence order (`dict.fromkeys`). -/
def generate_search_terms (keywords topics : List String) : List String :=
  dedupFirst ((sortBy lenGe keywords).take 5 ++ topics.take 3)

/-- A dataset record as read by the connector: `dataset.get('id', '')`
and `dataset.get('attributes', {})` (absent fields modelled by their
Python defaults). -/
structure Dataset where
  id : String
  attributes : Obj
deriving DecidableEq

/-- `WooConnector.UTRECHT_WOO_URL` (woo_connector.py:75-76). -/
def UTRECHT_WOO_URL : String := "https://organisaties.overheid.nl/woo/nl.oorg.gemutrecht_gemeente"

/-- The result dict of `WooConnector.analyze_dataset`. -/
structure AnalysisResult where
  dataset_id : String
  title : Val
  keywords : List String
  topics : List String
  woo_categories : List Suggestion
  woo_search_terms : List String
  woo_index_url : String
  relevance_score : Nat
deriving DecidableEq

/-- `WooConnector.analyze_dataset` (woo_connector.py:113-145). -/
def analyze_dataset (d : Dataset) : AnalysisResult :=
  let attrs := d.attributes
  let titleV := let v := wooGetAttr attrs "title"; if truthy v then v else Val.str ""
  let descV := let v := wooGetAttr attrs "description"; if truthy v then v else Val.str ""
  let kwV := let v := wooGetAttr attrs "keyword"; if truthy v then v else Val.list []
  let text := valText titleV ++ " " ++ valText descV ++ " " ++ joinSp kwV
  let keywords := extract_keywords text
  let topics := map_to_topics keywords
  let cats := suggest_woo_categories keywords topics
  let terms := generate_search_terms keywords topics
  ⟨d.id, titleV, keywords.take 10, topics, cats, terms, UTRECHT_WOO_URL,
    topics.length + cats.length⟩

/-- `any(topic_lower in str(t).lower() for t in analysis['topics'])` in
`find_related_datasets` (woo_connector.py:228). -/
def topicHit (q : String) (d : Dataset) : Bool :=
  (analyze_dataset d).topics.any fun t => substrOf (lowerStr q) (lowerStr t)

/-- `any(topic_lower in str(k).lower() for k in analysis['keywords'])` in
`find_related_datasets` (woo_connector.py:234). -/
def keywordHit (q : String) (d : Dataset) : Bool :=
  (analyze_dataset d).keywords.any fun k => substrOf (lowerStr q) (lowerStr k)

/-- One entry of the `related` list built by `find_related_datasets`. -/
structure RelatedEntry where
  dataset : Dataset
  analysis : AnalysisResult
  relevance : Int
deriving DecidableEq

/-- The per-record body of `find_related_datasets` (woo_connector.py:224-239):
topic match keeps the full score, keyword match keeps score minus one,
otherwise the record is dropped. -/
def entryOf (q : String) (d : Dataset) : Option RelatedEntry :=
  if topicHit q d then
    some ⟨d, analyze_dataset d, ((analyze_dataset d).relevance_score : Int)⟩
  else if keywordHit q d then
    some ⟨d, analyze_dataset d, ((analyze_dataset d).relevance_score : Int) - 1⟩
  else none

/-- Comparator of `related.sort(key=lambda x: x['relevance'], reverse=True)`:
relevance descending; with the stable `sortBy`, ties keep insertion order. -/
def relLe (x y : RelatedEntry) : Bool := decide (y.relevance ≤ x.relevance)

/-- `WooConnector.find_related_datasets` (woo_connector.py:219-243). -/
def find_related_datasets (q : String) (ds : List Dataset) : List RelatedEntry :=
  sortBy relLe (ds.filterMap (entryOf q))

/-! ## The JSON-RPC dispatch layer of `mcp_server.py`

The bodies of the tool handlers perform outbound HTTP fetches and string
formatting; per the spec they are external collaborators, so they are
abstracted as an environment `Env` mapping a tool name and its raw argument
dict to either a result text or a raised-exception message. The dispatch
logic itself — method routing, tool routing, required-argument extraction
and error-envelope shaping — is translated from the source. -/

/-- The external collaborators of the dispatch layer: the tool handler
bodies (`MCPServer.search_datasets` … `dataoverheid_get_organization`) and
the `/datasets` fetch used by `read_resource`; an `Except.error` models a
raised Python exception with its `str(e)` message. -/
structure Env where
  tool : String → List (String × Val) → Except String String
  fetchAll : Except String String

/-- The `params` dict of a request: `params.get("name")`,
`params.get("arguments", {})`, `params.get("uri")`. -/
structure Params where
  name : Option String
  arguments : List (String × Val)
  uri : Option String

/-- An incoming JSON-RPC request: `request.get("method")`,
`request.get("params", {})`, `request.get("id")`. -/
structure Request where
  method : Option String
  params : Params
  id : Option Nat

/-- The `result` member of a success envelope, by originating handler. -/
inductive Payload where
  | initResult
  | toolsList
  | resourcesList
  | toolText (s : String)
  | resourceText (s : String)
deriving DecidableEq

/-- An outgoing JSON-RPC envelope: success with a result payload, or
`MCPServer.error_response` with `{code, message}` (mcp_server.py:340-349). -/
inductive Response where
  | ok (id : Option Nat) (payload : Payload)
  | err (id : Option Nat) (code : Int) (message : String)
deriving DecidableEq

/-- Python `f"{method}"` for an optional string (absent renders as `None`). -/
def optText : Option String → String
  | some s => s
  | none => "None"

/-- `arguments["k"]` for each required argument, in source order: the first
absent key raises `KeyError` whose `str` is the quoted key name. -/
def toolBody (env : Env) (nm : String) (args : List (String × Val))
    (reqs : List String) : Except String String :=
  match reqs.find? fun k => (List.lookup k args).isNone with
  | some k => .error (quoteS k)
  | none => env.tool nm args

/-- The shared tail of every known-tool branch of `MCPServer.call_tool`:
wrap the handler text in a success envelope, or catch the exception and
convert it to a `-32603` envelope (mcp_server.py:286-299). -/
def runWrap (env : Env) (rid : Option Nat) (nm : String) (args : List (String × Val))
    (reqs : List String) : Response :=
  match toolBody env nm args reqs with
  | .ok s => .ok rid (.toolText s)
  | .error e => .err rid (-32603) ("Tool execution failed: " ++ e)

/-- `MCPServer.call_tool` (mcp_server.py:245-299): the `if`/`elif` chain over
tool names, with each branch's required-argument list taken from the
`arguments[...]` subscripts in its source line; unknown tools yield a
`-32602` envelope. -/
def call_tool (env : Env) (rid : Option Nat) (p : Params) : Response :=
  if p.name = some "search_datasets" then runWrap env rid "search_datasets" p.arguments []
  else if p.name = some "get_dataset" then runWrap env rid "get_dataset" p.arguments ["dataset_id"]
  else if p.name = some "get_distributions" then runWrap env rid "get_distributions" p.arguments ["dataset_id"]
  else if p.name = some "list_all_datasets" then runWrap env rid "list_all_datasets" p.arguments []
  else if p.name = some "analyze_woo_connection" then runWrap env rid "analyze_woo_connection" p.arguments ["dataset_id"]
  else if p.name = some "find_woo_related_datasets" then runWrap env rid "find_woo_related_datasets" p.arguments ["topic"]
  else if p.name = some "dataoverheid_search" then runWrap env rid "dataoverheid_search" p.arguments []
  else if p.name = some "dataoverheid_get_dataset" then runWrap env rid "dataoverheid_get_dataset" p.arguments ["dataset_id"]
  else if p.name = some "dataoverheid_list_organizations" then runWrap env rid "dataoverheid_list_organizations" p.arguments []
  else if p.name = some "dataoverheid_get_organization" then runWrap env rid "dataoverheid_get_organization" p.arguments ["org_id"]
  else .err rid (-32602) ("Unknown tool: " ++ optText p.name)

/-- The fixed tool table: each tool name of the `call_tool` chain with its
required-argument list. -/
def toolTable : List (String × List String) :=
  [("search_datasets", []),
   ("get_dataset", ["dataset_id"]),
   ("get_distributions", ["dataset_id"]),
   ("list_all_datasets", []),
   ("analyze_woo_connection", ["dataset_id"]),
   ("find_woo_related_datasets", ["topic"]),
   ("dataoverheid_search", []),
   ("dataoverheid_get_dataset", ["dataset_id"]),
   ("dataoverheid_list_organizations", []),
   ("dataoverheid_get_organization", ["org_id"])]

/-- The names of the fixed tool table. -/
def toolNames : List String := toolTable.map (·.1)

/-- `MCPServer.read_resource` (mcp_server.py:318-338). A fetch failure
propagates out of the handler and is caught by `handle_request`'s
boundary `except`, which shapes the `-32603` envelope with the bare
exception message (mcp_server.py:56-57); that catch is inlined here. -/
def read_resource (env : Env) (rid : Option Nat) (p : Params) : Response :=
  if p.uri = some "utrecht://datasets" then
    match env.fetchAll with
    | .ok s => .ok rid (.resourceText s)
    | .error e => .err rid (-32603) e
  else .err rid (-32602) ("Unknown resource: " ++ optText p.uri)

/-- `MCPServer.handle_request` (mcp_server.py:37-57): the method `if`/`elif`
chain; unknown methods yield a `-32601` envelope. -/
def handle_request (env : Env) (req : Request) : Response :=
  if req.method = some "initialize" then .ok req.id .initResult
  else if req.method = some "tools/list" then .ok req.id .toolsList
  else if req.method = some "tools/call" then call_tool env req.id req.params
  else if req.method = some "resources/list" then .ok req.id .resourcesList
  else if req.method = some "resources/read" then read_resource env req.id req.params
  else .err req.id (-32601) ("Method not found: " ++ optText req.method)

/-! ## Mutation-freedom model for the analysis pipeline (claim C9)

Python dicts are mutable, so "the core never mutates the record" is modelled
by recording the sequence of dict operations the source performs on the
record and on its nested `attributes` mapping, and showing that replaying
that trace leaves any dict unchanged because it consists of reads only. -/

/-- A primitive Python dict operation: a keyed read (`d.get(k)` / `d[k]` /
`k in d`) or a keyed write (`d[k] = v`). -/
inductive DictOp where
  | get (key : String)
  | set (key : String) (v : Val)
deriving DecidableEq

/-- `d[k] = v`: replace the binding for `k`, or append it. -/
def setKey : Obj → String → Val → Obj
  | [], k, v => [(k, v)]
  | (k0, v0) :: rest, k, v =>
    if k0 == k then (k, v) :: rest else (k0, v0) :: setKey rest k v

/-- The effect of one dict operation on a dict. -/
def applyOp (o : Obj) : DictOp → Obj
  | .get _ => o
  | .set k v => setKey o k v

/-- Replay a sequence of dict operations. -/
def applyOps (o : Obj) (ops : List DictOp) : Obj := ops.foldl applyOp o

/-- The reads `_get_attr` performs on the `attributes` dict for one key
(woo_connector.py:215-217). -/
def getAttrTrace (key : String) : List DictOp :=
  [.get ("dct:" ++ key), .get ("dcat:" ++ key), .get key]

/-- The operations `analyze_dataset` performs on the record dict itself:
`dataset.get('attributes', {})` and `dataset.get('id', '')`
(woo_connector.py:115-121). -/
def analyzeDatasetTrace : List DictOp := [.get "attributes", .get "id"]

/-- The operations `analyze_dataset` performs on the nested `attributes`
dict: the three `_get_attr` lookups (woo_connector.py:118-120). -/
def analyzeAttrsTrace : List DictOp :=
  getAttrTrace "title" ++ getAttrTrace "description" ++ getAttrTrace "keyword"

/-- The operations `find_related_datasets` performs on one record dict:
one `analyze_dataset` visit per loop iteration over the `datasets` list
(woo_connector.py:224-239); a record occurring `n` times is visited `n`
times. -/
def findRelatedTrace (n : Nat) : List DictOp :=
  (List.replicate n analyzeDatasetTrace).flatten

/-! ## Concrete inputs used by witnesses and counterexamples -/

/-- A record whose description triggers many topic anchors; its relevance
score exceeds 10, refuting the "out of 10" display label. -/
def exampleRich : Dataset :=
  ⟨"rich", [("dct:description", Val.str "afval parkeren verkeer jeugd zorginstelling milieu energie water groen veiligheid subsidie beleid vergunning woningbouw")]⟩

/-- A record carrying a present-but-empty `dct:title` next to a bare `title`:
separates presence-based from truthiness-based attribute resolution. -/
def c8Obj : Obj := [("dct:title", Val.str ""), ("title", Val.str "fallback")]

/-- The example dataset of `woo_connector.main` (woo_connector.py:302-309). -/
def dAfval : Dataset :=
  ⟨"afvalbakken",
   [("dct:title", Val.str "Afvalbakken"),
    ("dct:description", Val.str "Overzicht van bovengrondse afvalbakken in de gemeente Utrecht voor afvalbeleid"),
    ("dcat:keyword", Val.list ["afval", "afvalbak", "openbare ruimte"])]⟩

/-- A trivial external-collaborator environment whose handlers all succeed. -/
def env0 : Env := ⟨fun _ _ => .ok "", .ok ""⟩

/-- The keyword-extraction scenario text from the spec's testable properties. -/
def demoText : String := "Afvalbakken in de openbare ruimte voor afvalbeleid"

/-! ## Lemmas about the generic list workers -/

theorem mem_dedupAux {α : Type} [DecidableEq α] (l : List α) :
    ∀ (seen : List α) (x : α), x ∈ dedupAux l seen ↔ x ∈ l ∧ x ∉ seen := by
  induction l with
  | nil => intro seen x; simp [dedupAux]
  | cons y ys ih =>
    intro seen x
    by_cases h : y ∈ seen
    · rw [show dedupAux (y :: ys) seen = dedupAux ys seen from by simp [dedupAux, h], ih seen x]
      constructor
      · exact fun ⟨hm, hs⟩ => ⟨List.mem_cons_of_mem _ hm, hs⟩
      · rintro ⟨hm, hs⟩
        rcases List.mem_cons.1 hm with rfl | hm
        · exact absurd h hs
        · exact ⟨hm, hs⟩
    · rw [show dedupAux (y :: ys) seen = y :: dedupAux ys (y :: seen) from by
        simp [dedupAux, h]]
      constructor
      · intro hx
        rcases List.mem_cons.1 hx with rfl | hx
        · exact ⟨List.mem_cons_self _ _, h⟩
        · obtain ⟨hm, hs⟩ := (ih (y :: seen) x).1 hx
          exact ⟨List.mem_cons_of_mem _ hm, fun hsx => hs (List.mem_cons_of_mem _ hsx)⟩
      · rintro ⟨hm, hs⟩
        by_cases hxy : x = y
        · subst hxy; exact List.mem_cons_self _ _
        · rcases List.mem_cons.1 hm with rfl | hm
          · exact absurd rfl hxy
          · refine List.mem_cons_of_mem _ ((ih (y :: seen) x).2 ⟨hm, ?_⟩)
            intro hx
            rcases List.mem_cons.1 hx with rfl | hx
            · exact hxy rfl
            · exact hs hx

theorem nodup_dedupAux {α : Type} [DecidableEq α] (l : List α) :
    ∀ seen : List α, (dedupAux l seen).Nodup := by
  induction l with
  | nil => intro seen; simp [dedupAux]
  | cons y ys ih =>
    intro seen
    by_cases h : y ∈ seen
    · simpa only [dedupAux, if_pos h] using ih seen
    · simp only [dedupAux, if_neg h]
      refine List.nodup_cons.mpr ⟨fun hy => ?_, ih _⟩
      exact ((mem_dedupAux ys (y :: seen) y).1 hy).2 (List.mem_cons_self y seen)

theorem sublist_dedupAux {α : Type} [DecidableEq α] (l : List α) :
    ∀ seen : List α, List.Sublist (dedupAux l seen) l := by
  induction l with
  | nil => intro seen; simp [dedupAux]
  | cons y ys ih =>
    intro seen
    by_cases h : y ∈ seen
    · simp only [dedupAux, if_pos h]
      exact (ih seen).cons y
    · simp only [dedupAux, if_neg h]
      exact (ih (y :: seen)).cons₂ y

theorem mem_dedupFirst {α : Type} [DecidableEq α] (l : List α) (x : α) :
    x ∈ dedupFirst l ↔ x ∈ l := by
  simpa [dedupFirst] using mem_dedupAux l [] x

theorem nodup_dedupFirst {α : Type} [DecidableEq α] (l : List α) :
    (dedupFirst l).Nodup := nodup_dedupAux l []

theorem sublist_dedupFirst {α : Type} [DecidableEq α] (l : List α) :
    List.Sublist (dedupFirst l) l := sublist_dedupAux l []

theorem mem_insertBy {α : Type} (le : α → α → Bool) (x : α) (l : List α) (a : α) :
    a ∈ insertBy le x l ↔ a = x ∨ a ∈ l := by
  induction l with
  | nil => simp [insertBy]
  | cons y ys ih =>
    by_cases h : le x y = true
    · simp only [insertBy, if_pos h, List.mem_cons]
    · simp only [insertBy, if_neg h, List.mem_cons, ih]
      tauto

theorem pairwise_insertBy {α : Type} (le : α → α → Bool)
    (htot : ∀ a b, le a b = true ∨ le b a = true)
    (htrans : ∀ a b c, le a b = true → le b c = true → le a c = true)
    (x : α) (l : List α) (h : l.Pairwise fun a b => le a b = true) :
    (insertBy le x l).Pairwise fun a b => le a b = true := by
  induction l with
  | nil => simp [insertBy]
  | cons y ys ih =>
    rcases List.pairwise_cons.1 h with ⟨hy, hys⟩
    by_cases hxy : le x y = true
    · simp only [insertBy, if_pos hxy]
      refine List.pairwise_cons.2 ⟨?_, h⟩
      intro b hb
      rcases List.mem_cons.1 hb with rfl | hb
      · exact hxy
      · exact htrans x y b hxy (hy b hb)
    · simp only [insertBy, if_neg hxy]
      refine List.pairwise_cons.2 ⟨?_, ih hys⟩
      intro b hb
      rcases (mem_insertBy le x ys b).1 hb with rfl | hb
      · rcases htot b y with hx | hx
        · exact absurd hx hxy
        · exact hx
      · exact hy b hb

theorem mem_sortBy {α : Type} (le : α → α → Bool) (l : List α) (a : α) :
    a ∈ sortBy le l ↔ a ∈ l := by
  induction l with
  | nil => simp [sortBy]
  | cons x xs ih => simp [sortBy, mem_insertBy, ih, List.mem_cons]

theorem pairwise_sortBy {α : Type} (le : α → α → Bool)
    (htot : ∀ a b, le a b = true ∨ le b a = true)
    (htrans : ∀ a b c, le a b = true → le b c = true → le a c = true)
    (l : List α) : (sortBy le l).Pairwise fun a b => le a b = true := by
  induction l with
  | nil => simp [sortBy]
  | cons x xs ih => exact pairwise_insertBy le htot htrans x _ ih

theorem mem_insertNew (acc : List String) (t x : String) :
    x ∈ insertNew acc t ↔ x ∈ acc ∨ x = t := by
  by_cases h : t ∈ acc
  · simp only [insertNew, if_pos h]
    constructor
    · exact Or.inl
    · rintro (hx | rfl)
      · exact hx
      · exact h
  · simp [insertNew, if_neg h]

theorem mem_unionInto (l : List String) :
    ∀ (acc : List String) (x : String), x ∈ unionInto acc l ↔ x ∈ acc ∨ x ∈ l := by
  induction l with
  | nil => intro acc x; simp [unionInto]
  | cons t ts ih =>
    intro acc x
    have h0 : unionInto acc (t :: ts) = unionInto (insertNew acc t) ts := rfl
    rw [h0, ih, mem_insertNew]
    simp only [List.mem_cons]
    tauto

theorem mem_foldl_topicStep (kw : String) (entries : List (String × List String)) :
    ∀ (acc : List String) (x : String),
      x ∈ entries.foldl (topicStep kw) acc ↔
        x ∈ acc ∨ ∃ e ∈ entries, matchKey kw e.1 = true ∧ x ∈ e.2 := by
  induction entries with
  | nil => intro acc x; simp
  | cons e es ih =>
    intro acc x
    rw [List.foldl_cons, ih]
    by_cases h : matchKey kw e.1 = true
    · simp only [topicStep, if_pos h, mem_unionInto, List.mem_cons]
      constructor
      · rintro ((hx | hx) | ⟨f, hf, hm, hx⟩)
        · exact Or.inl hx
        · exact Or.inr ⟨e, Or.inl rfl, h, hx⟩
        · exact Or.inr ⟨f, Or.inr hf, hm, hx⟩
      · rintro (hx | ⟨f, rfl | hf, hm, hx⟩)
        · exact Or.inl (Or.inl hx)
        · exact Or.inl (Or.inr hx)
        · exact Or.inr ⟨f, hf, hm, hx⟩
    · simp only [topicStep, if_neg h, List.mem_cons]
      constructor
      · rintro (hx | ⟨f, hf, hm, hx⟩)
        · exact Or.inl hx
        · exact Or.inr ⟨f, Or.inr hf, hm, hx⟩
      · rintro (hx | ⟨f, rfl | hf, hm, hx⟩)
        · exact Or.inl hx
        · exact absurd hm h
        · exact Or.inr ⟨f, hf, hm, hx⟩

theorem mem_map_to_topics_aux (K : List String) :
    ∀ (acc : List String) (x : String),
      x ∈ K.foldl (fun acc kw => TOPIC_MAPPING.foldl (topicStep kw) acc) acc ↔
        x ∈ acc ∨ ∃ kw ∈ K, ∃ e ∈ TOPIC_MAPPING, matchKey kw e.1 = true ∧ x ∈ e.2 := by
  induction K with
  | nil => intro acc x; simp
  | cons kw kws ih =>
    intro acc x
    rw [List.foldl_cons, ih, mem_foldl_topicStep]
    simp only [List.mem_cons]
    constructor
    · rintro ((hx | ⟨e, he, hm, hx⟩) | ⟨k, hk, e, he, hm, hx⟩)
      · exact Or.inl hx
      · exact Or.inr ⟨kw, Or.inl rfl, e, he, hm, hx⟩
      · exact Or.inr ⟨k, Or.inr hk, e, he, hm, hx⟩
    · rintro (hx | ⟨k, rfl | hk, e, he, hm, hx⟩)
      · exact Or.inl (Or.inl hx)
      · exact Or.inl (Or.inr ⟨e, he, hm, hx⟩)
      · exact Or.inr ⟨k, hk, e, he, hm, hx⟩

theorem mem_map_to_topics (K : List String) (x : String) :
    x ∈ map_to_topics K ↔
      ∃ kw ∈ K, ∃ e ∈ TOPIC_MAPPING, matchKey kw e.1 = true ∧ x ∈ e.2 := by
  simpa [map_to_topics] using mem_map_to_topics_aux K [] x

theorem mem_cat_dedupCatAux (l : List Suggestion) :
    ∀ (seen : List String) (c : String),
      c ∈ (dedupCatAux l seen).map (·.category) ↔
        c ∈ l.map (·.category) ∧ c ∉ seen := by
  induction l with
  | nil => intro seen c; simp [dedupCatAux]
  | cons s rest ih =>
    intro seen c
    by_cases h : s.category ∈ seen
    · rw [show dedupCatAux (s :: rest) seen = dedupCatAux rest seen from by
        simp [dedupCatAux, h], ih seen c, List.map_cons]
      constructor
      · exact fun ⟨hm, hs⟩ => ⟨List.mem_cons_of_mem _ hm, hs⟩
      · rintro ⟨hm, hs⟩
        rcases List.mem_cons.1 hm with rfl | hm
        · exact absurd h hs
        · exact ⟨hm, hs⟩
    · rw [show dedupCatAux (s :: rest) seen = s :: dedupCatAux rest (s.category :: seen) from by
        simp [dedupCatAux, h], List.map_cons, List.map_cons]
      constructor
      · intro hx
        rcases List.mem_cons.1 hx with rfl | hx
        · exact ⟨List.mem_cons_self _ _, h⟩
        · obtain ⟨hm, hs⟩ := (ih (s.category :: seen) c).1 hx
          exact ⟨List.mem_cons_of_mem _ hm, fun hsx => hs (List.mem_cons_of_mem _ hsx)⟩
      · rintro ⟨hm, hs⟩
        by_cases hxy : c = s.category
        · subst hxy; exact List.mem_cons_self _ _
        · rcases List.mem_cons.1 hm with rfl | hm
          · exact absurd rfl hxy
          · refine List.mem_cons_of_mem _ ((ih (s.category :: seen) c).2 ⟨hm, ?_⟩)
            intro hx
            rcases List.mem_cons.1 hx with rfl | hx
            · exact hxy rfl
            · exact hs hx

theorem nodup_cat_dedupCatAux (l : List Suggestion) :
    ∀ seen : List String, ((dedupCatAux l seen).map (·.category)).Nodup := by
  induction l with
  | nil => intro seen; simp [dedupCatAux]
  | cons s rest ih =>
    intro seen
    by_cases h : s.category ∈ seen
    · simpa only [dedupCatAux, if_pos h] using ih seen
    · simp only [dedupCatAux, if_neg h, List.map_cons]
      refine List.nodup_cons.mpr ⟨fun hy => ?_, ih _⟩
      exact ((mem_cat_dedupCatAux rest (s.category :: seen) s.category).1 hy).2
        (List.mem_cons_self _ _)

theorem sublist_dedupCatAux (l : List Suggestion) :
    ∀ seen : List String, List.Sublist (dedupCatAux l seen) l := by
  induction l with
  | nil => intro seen; simp [dedupCatAux]
  | cons s rest ih =>
    intro seen
    by_cases h : s.category ∈ seen
    · simp only [dedupCatAux, if_pos h]
      exact (ih seen).cons s
    · simp only [dedupCatAux, if_neg h]
      exact (ih (s.category :: seen)).cons₂ s

theorem map_filterMap_sublist {α β γ : Type} (f : α → Option β) (g : β → γ) (h : α → γ)
    (hf : ∀ a b, f a = some b → g b = h a) :
    ∀ l : List α, List.Sublist ((l.filterMap f).map g) (l.map h) := by
  intro l
  induction l with
  | nil => simp
  | cons a as ih =>
    rw [List.filterMap_cons, List.map_cons]
    cases hfa : f a with
    | none => exact ih.cons (h a)
    | some b => rw [List.map_cons, hf a b hfa]; exact ih.cons₂ _

theorem relLe_total : ∀ a b : RelatedEntry, relLe a b = true ∨ relLe b a = true := by
  intro a b
  simp only [relLe, decide_eq_true_eq]
  omega

theorem relLe_trans :
    ∀ a b c : RelatedEntry, relLe a b = true → relLe b c = true → relLe a c = true := by
  intro a b c
  simp only [relLe, decide_eq_true_eq]
  omega

theorem lenGe_total : ∀ a b : String, lenGe a b = true ∨ lenGe b a = true := by
  intro a b
  simp only [lenGe, decide_eq_true_eq]
  omega

theorem lenGe_trans :
    ∀ a b c : String, lenGe a b = true → lenGe b c = true → lenGe a c = true := by
  intro a b c
  simp only [lenGe, decide_eq_true_eq]
  omega

theorem filter_insertBy_rel (v : Int) (x : RelatedEntry) (m : List RelatedEntry) :
    (insertBy relLe x m).filter (fun e => decide (e.relevance = v)) =
      if x.relevance = v then x :: m.filter (fun e => decide (e.relevance = v))
      else m.filter (fun e => decide (e.relevance = v)) := by
  induction m with
  | nil => by_cases h : x.relevance = v <;> simp [insertBy, h]
  | cons y ys ih =>
    by_cases hxy : relLe x y = true
    · simp only [insertBy, if_pos hxy]
      by_cases h : x.relevance = v <;> simp [List.filter_cons, h]
    · have hlt : x.relevance < y.relevance := by
        have h2 : ¬ (y.relevance ≤ x.relevance) := by
          simpa [relLe] using hxy
        omega
      simp only [insertBy, if_neg hxy, List.filter_cons, ih]
      by_cases h : x.relevance = v
      · by_cases hy : y.relevance = v
        · exfalso; omega
        · simp [h, hy]
      · by_cases hy : y.relevance = v <;> simp [h, hy]

theorem filter_sortBy_rel (v : Int) (l : List RelatedEntry) :
    (sortBy relLe l).filter (fun e => decide (e.relevance = v)) =
      l.filter (fun e => decide (e.relevance = v)) := by
  induction l with
  | nil => rfl
  | cons x xs ih =>
    show (insertBy relLe x (sortBy relLe xs)).filter _ = _
    rw [filter_insertBy_rel, ih, List.filter_cons]
    by_cases h : x.relevance = v <;> simp [h]

theorem entryOf_dataset {q : String} {d : Dataset} {e : RelatedEntry}
    (h : entryOf q d = some e) : e.dataset = d := by
  unfold entryOf at h
  split at h
  · injection h with h2; subst h2; rfl
  · split at h
    · injection h with h2; subst h2; rfl
    · cases h

theorem applyOps_of_reads (ops : List DictOp)
    (h : ∀ op ∈ ops, ∃ k, op = DictOp.get k) : ∀ o : Obj, applyOps o ops = o := by
  induction ops with
  | nil => intro o; rfl
  | cons op rest ih =>
    intro o
    obtain ⟨k, rfl⟩ := h op (List.mem_cons_self _ _)
    show applyOps (applyOp o (DictOp.get k)) rest = o
    exact ih (fun op hop => h op (List.mem_cons_of_mem _ hop)) o

theorem pairwise_firstIdx_dedupAux {α : Type} [DecidableEq α] (l : List α) :
    ∀ seen : List α,
      (dedupAux l seen).Pairwise fun x y => List.indexOf x l < List.indexOf y l := by
  induction l with
  | nil => intro seen; simp [dedupAux]
  | cons a as ih =>
    intro seen
    by_cases h : a ∈ seen
    · rw [show dedupAux (a :: as) seen = dedupAux as seen from by simp [dedupAux, h]]
      refine List.Pairwise.imp_of_mem ?_ (ih seen)
      intro x y hx hy hR
      have hxa : a ≠ x := fun he => ((mem_dedupAux as seen x).1 hx).2 (by rw [← he]; exact h)
      have hya : a ≠ y := fun he => ((mem_dedupAux as seen y).1 hy).2 (by rw [← he]; exact h)
      rw [List.indexOf_cons_ne as hxa, List.indexOf_cons_ne as hya]
      omega
    · rw [show dedupAux (a :: as) seen = a :: dedupAux as (a :: seen) from by
        simp [dedupAux, h]]
      refine List.pairwise_cons.2 ⟨?_, ?_⟩
      · intro z hz
        have hz2 := (mem_dedupAux as (a :: seen) z).1 hz
        have hza : a ≠ z := fun he => hz2.2 (by rw [← he]; exact List.mem_cons_self _ _)
        rw [List.indexOf_cons_self, List.indexOf_cons_ne as hza]
        omega
      · refine List.Pairwise.imp_of_mem ?_ (ih (a :: seen))
        intro x y hx hy hR
        have hxa : a ≠ x := fun he =>
          ((mem_dedupAux as (a :: seen) x).1 hx).2 (by rw [← he]; exact List.mem_cons_self _ _)
        have hya : a ≠ y := fun he =>
          ((mem_dedupAux as (a :: seen) y).1 hy).2 (by rw [← he]; exact List.mem_cons_self _ _)
        rw [List.indexOf_cons_ne as hxa, List.indexOf_cons_ne as hya]
        omega

theorem pairwise_firstIdx_dedupFirst {α : Type} [DecidableEq α] (l : List α) :
    (dedupFirst l).Pairwise fun x y => List.indexOf x l < List.indexOf y l :=
  pairwise_firstIdx_dedupAux l []

theorem mem_dedupCatAux_first (l : List Suggestion) :
    ∀ (seen : List String) (s : Suggestion),
      s ∈ dedupCatAux l seen ↔
        s.category ∉ seen ∧
          l.find? (fun t => decide (t.category = s.category)) = some s := by
  induction l with
  | nil => intro seen s; simp [dedupCatAux]
  | cons a rest ih =>
    intro seen s
    by_cases h : a.category ∈ seen
    · rw [show dedupCatAux (a :: rest) seen = dedupCatAux rest seen from by
        simp [dedupCatAux, h], ih seen s]
      by_cases hc : a.category = s.category
      · constructor
        · rintro ⟨hs, hf⟩
          exact absurd (hc ▸ h) hs
        · rintro ⟨hs, hf⟩
          exact absurd (hc ▸ h) hs
      · rw [List.find?_cons_of_neg rest (by simp [hc])]
    · rw [show dedupCatAux (a :: rest) seen = a :: dedupCatAux rest (a.category :: seen) from by
        simp [dedupCatAux, h]]
      by_cases hc : a.category = s.category
      · rw [List.find?_cons_of_pos rest (by simp [hc])]
        constructor
        · intro hmem
          rcases List.mem_cons.1 hmem with rfl | hmem
          · exact ⟨h, rfl⟩
          · obtain ⟨hs, hf⟩ := (ih (a.category :: seen) s).1 hmem
            have : s.category ∈ a.category :: seen := by
              rw [← hc]; exact List.mem_cons_self _ _
            exact absurd this hs
        · rintro ⟨hs, hf⟩
          injection hf with hf
          subst hf
          exact List.mem_cons_self _ _
      · rw [List.find?_cons_of_neg rest (by simp [hc])]
        constructor
        · intro hmem
          rcases List.mem_cons.1 hmem with rfl | hmem
          · exact absurd rfl hc
          · obtain ⟨hs, hf⟩ := (ih (a.category :: seen) s).1 hmem
            exact ⟨fun hss => hs (List.mem_cons_of_mem _ hss), hf⟩
        · rintro ⟨hs, hf⟩
          refine List.mem_cons_of_mem _ ((ih (a.category :: seen) s).2 ⟨?_, hf⟩)
          intro hss
          rcases List.mem_cons.1 hss with he | hss2
          · exact hc he.symm
          · exact hs hss2

theorem pairwise_firstIdx_dedupCatAux (l : List Suggestion) :
    ∀ seen : List String,
      (dedupCatAux l seen).Pairwise fun x y => List.indexOf x l < List.indexOf y l := by
  induction l with
  | nil => intro seen; simp [dedupCatAux]
  | cons a rest ih =>
    intro seen
    by_cases h : a.category ∈ seen
    · rw [show dedupCatAux (a :: rest) seen = dedupCatAux rest seen from by simp [dedupCatAux, h]]
      refine List.Pairwise.imp_of_mem ?_ (ih seen)
      intro x y hx hy hR
      have hxa : a ≠ x := fun he =>
        ((mem_dedupCatAux_first rest seen x).1 hx).1 (by rw [← he]; exact h)
      have hya : a ≠ y := fun he =>
        ((mem_dedupCatAux_first rest seen y).1 hy).1 (by rw [← he]; exact h)
      rw [List.indexOf_cons_ne rest hxa, List.indexOf_cons_ne rest hya]
      omega
    · rw [show dedupCatAux (a :: rest) seen = a :: dedupCatAux rest (a.category :: seen) from by
        simp [dedupCatAux, h]]
      refine List.pairwise_cons.2 ⟨?_, ?_⟩
      · intro z hz
        have hza : a ≠ z := fun he =>
          ((mem_dedupCatAux_first rest (a.category :: seen) z).1 hz).1
            (by rw [← he]; exact List.mem_cons_self _ _)
        rw [List.indexOf_cons_self, List.indexOf_cons_ne rest hza]
        omega
      · refine List.Pairwise.imp_of_mem ?_ (ih (a.category :: seen))
        intro x y hx hy hR
        have hxa : a ≠ x := fun he =>
          ((mem_dedupCatAux_first rest (a.category :: seen) x).1 hx).1
            (by rw [← he]; exact List.mem_cons_self _ _)
        have hya : a ≠ y := fun he =>
          ((mem_dedupCatAux_first rest (a.category :: seen) y).1 hy).1
            (by rw [← he]; exact List.mem_cons_self _ _)
        rw [List.indexOf_cons_ne rest hxa, List.indexOf_cons_ne rest hya]
        omega

/-! ## Claim theorems -/

set_option maxRecDepth 100000 in
/-- Claim C2: for every record, `analyze_dataset` returns a result whose
`relevance_score` equals the number of mapped topics plus the number of
suggested categories (a natural number, hence always ≥ 0), its `keywords`
field holds at most 10 entries, and the score has no fixed upper bound:
a concrete record already exceeds the documentation's "out of 10" label. -/
theorem C2_relevance_score :
    (∀ d : Dataset,
      (analyze_dataset d).relevance_score =
        (analyze_dataset d).topics.length + (analyze_dataset d).woo_categories.length ∧
      (analyze_dataset d).keywords.length ≤ 10) ∧
    10 < (analyze_dataset exampleRich).relevance_score := by
  refine ⟨fun d => ⟨rfl, List.length_take_le _ _⟩, by decide⟩

/-- Claim C3: `map_to_topics` returns exactly the union of the topic lists of
the static `TOPIC_MAPPING` entries whose anchor occurs as a substring of
some keyword or contains some keyword as a substring; consequently every
returned topic lies in the static topic vocabulary, and
`map_to_topics ["afval"]` contains "milieu", "openbare ruimte", "beheer"
and "huisvesting". -/
theorem C3_map_topics :
    (∀ (K : List String) (x : String),
      x ∈ map_to_topics K ↔
        ∃ kw ∈ K, ∃ e ∈ TOPIC_MAPPING,
          (substrOf e.1 kw || substrOf kw e.1) = true ∧ x ∈ e.2) ∧
    (∀ (K : List String) (x : String), x ∈ map_to_topics K → x ∈ allWooTopics) ∧
    ("milieu" ∈ map_to_topics ["afval"] ∧ "openbare ruimte" ∈ map_to_topics ["afval"] ∧
      "beheer" ∈ map_to_topics ["afval"] ∧ "huisvesting" ∈ map_to_topics ["afval"]) := by
  refine ⟨?_, ?_, by decide⟩
  · intro K x
    rw [mem_map_to_topics]
    simp only [matchKey]
  · intro K x hx
    obtain ⟨kw, hkw, e, he, hm, hxe⟩ := (mem_map_to_topics K x).1 hx
    exact List.mem_flatten.2 ⟨e.2, List.mem_map_of_mem _ he, hxe⟩

/-- Witness for C3: instantiates the subset property at the "afval" scenario. -/
theorem C3_map_topics_witness :
    "milieu" ∈ map_to_topics ["afval"] ∧ "milieu" ∈ allWooTopics :=
  ⟨C3_map_topics.2.2.1, C3_map_topics.2.1 ["afval"] "milieu" C3_map_topics.2.2.1⟩

/-- Claim C6: `extract_keywords` of the empty text is empty and never an
error; for every text, a word belongs to the extracted set exactly when it
is a token of the lowercased text of length strictly greater than 3 that is
not a stopword; and the spec's scenario text yields a set containing
"afvalbakken", "openbare", "ruimte" and "afvalbeleid" but not "in", "de"
or "voor". -/
theorem C6_extract_keywords :
    extract_keywords "" = [] ∧
    (∀ t w : String,
      w ∈ extract_keywords t ↔
        w ∈ tokenize (lowerStr t) ∧ 3 < w.length ∧ w ∉ stopwords) ∧
    ("afvalbakken" ∈ extract_keywords demoText ∧
      "openbare" ∈ extract_keywords demoText ∧
      "ruimte" ∈ extract_keywords demoText ∧
      "afvalbeleid" ∈ extract_keywords demoText) ∧
    ("in" ∉ extract_keywords demoText ∧
      "de" ∉ extract_keywords demoText ∧
      "voor" ∉ extract_keywords demoText) := by
  refine ⟨rfl, ?_, by decide, by decide⟩
  intro t w
  by_cases ht : t = ""
  · subst ht
    rw [show extract_keywords "" = [] from rfl,
      show tokenize (lowerStr "") = [] from by decide]
    simp
  · rw [show extract_keywords t = dedupFirst ((tokenize (lowerStr t)).filter fun w =>
        decide (3 < w.length) && decide (w ∉ stopwords)) from by
      simp [extract_keywords, ht]]
    rw [mem_dedupFirst, List.mem_filter]
    simp [Bool.and_eq_true, decide_eq_true_eq, and_assoc]

/-- Witness for C6: the membership characterisation instantiated at the
scenario text and the word "afvalbakken". -/
theorem C6_extract_keywords_witness :
    ("afvalbakken" ∈ extract_keywords demoText ↔
      "afvalbakken" ∈ tokenize (lowerStr demoText) ∧ 3 < "afvalbakken".length ∧
        "afvalbakken" ∉ stopwords) ∧
    "afvalbakken" ∈ extract_keywords demoText :=
  ⟨C6_extract_keywords.2.1 demoText "afvalbakken", C6_extract_keywords.2.2.1.1⟩

/-- Claim C7: `generate_search_terms` is duplicate-free, is an
order-preserving selection from the concatenation of the 5 longest keywords
(enumerated length-descending, ties in enumeration order, witnessed by the
pairwise-sorted property of `sortBy lenGe`) with the first 3 topics,
contains exactly the elements of that concatenation, and lists them in
strictly increasing order of their first occurrence in the concatenation —
so the deduplication keeps the first occurrence of every element, never a
later one. -/
theorem C7_generate_search_terms :
    ∀ kws tps : List String,
      (generate_search_terms kws tps).Nodup ∧
      List.Sublist (generate_search_terms kws tps)
        ((sortBy lenGe kws).take 5 ++ tps.take 3) ∧
      (∀ x, x ∈ generate_search_terms kws tps ↔
        x ∈ (sortBy lenGe kws).take 5 ∨ x ∈ tps.take 3) ∧
      ((sortBy lenGe kws).Pairwise fun a b => b.length ≤ a.length) ∧
      ((generate_search_terms kws tps).Pairwise fun x y =>
        List.indexOf x ((sortBy lenGe kws).take 5 ++ tps.take 3) <
          List.indexOf y ((sortBy lenGe kws).take 5 ++ tps.take 3)) := by
  intro kws tps
  refine ⟨nodup_dedupFirst _, sublist_dedupFirst _, ?_, ?_, pairwise_firstIdx_dedupFirst _⟩
  · intro x
    rw [show generate_search_terms kws tps =
        dedupFirst ((sortBy lenGe kws).take 5 ++ tps.take 3) from rfl]
    rw [mem_dedupFirst, List.mem_append]
  · exact (pairwise_sortBy lenGe lenGe_total lenGe_trans kws).imp fun h => by
      simpa [lenGe] using h

/-- Witness for C7: the search-term properties instantiated at a concrete
keyword and topic list. -/
theorem C7_generate_search_terms_witness :
    (generate_search_terms ["afvalbeleid", "ruimte"] ["milieu"]).Nodup ∧
    ("afvalbeleid" ∈ generate_search_terms ["afvalbeleid", "ruimte"] ["milieu"] ↔
      "afvalbeleid" ∈ (sortBy lenGe ["afvalbeleid", "ruimte"]).take 5 ∨
        "afvalbeleid" ∈ (["milieu"] : List String).take 3) :=
  ⟨(C7_generate_search_terms ["afvalbeleid", "ruimte"] ["milieu"]).1,
   (C7_generate_search_terms ["afvalbeleid", "ruimte"] ["milieu"]).2.2.1 "afvalbeleid"⟩

/-- Claim C4: `suggest_woo_categories` never returns two suggestions with the
same category id; the keyword-anchored pass already emits at most one
suggestion per category code; the output is a subsequence of the keyword
pass followed by the topic pass; each of the two topic rules contributes
its category ("4", resp. "1e") whenever its topic set intersects the
rule's trigger topics; and deduplication is first-seen wins: a suggestion
is in the output exactly when it is the FIRST suggestion carrying its
category id in the keyword pass followed by the topic pass, the output
lists survivors in strictly increasing order of that first position, and on
the reachable cross-pass collision for keyword "afvalbeleid" (both passes
emit category "4") the surviving suggestion is the keyword-pass one with
its keyword-derived reason. -/
theorem C4_category_dedup :
    ∀ kws tps : List String,
      (((suggest_woo_categories kws tps).map (·.category)).Nodup) ∧
      (((keywordPass kws).map (·.category)).Nodup) ∧
      List.Sublist (suggest_woo_categories kws tps) (keywordPass kws ++ topicPass tps) ∧
      ((∃ t ∈ tps, t ∈ (["beleid", "regelgeving", "bestuur"] : List String)) →
        "4" ∈ (suggest_woo_categories kws tps).map (·.category)) ∧
      ((∃ t ∈ tps, t ∈ (["subsidie", "financiën"] : List String)) →
        "1e" ∈ (suggest_woo_categories kws tps).map (·.category)) ∧
      (∀ s : Suggestion,
        s ∈ suggest_woo_categories kws tps ↔
          (keywordPass kws ++ topicPass tps).find?
            (fun t => decide (t.category = s.category)) = some s) ∧
      ((suggest_woo_categories kws tps).Pairwise fun x y =>
        List.indexOf x (keywordPass kws ++ topicPass tps) <
          List.indexOf y (keywordPass kws ++ topicPass tps)) ∧
      (suggest_woo_categories ["afvalbeleid"] (map_to_topics ["afvalbeleid"]) =
        [⟨"4", "Regelingen en beleidsnota\x27s", "Bevat keyword: afvalbeleid"⟩]) := by
  intro kws tps
  refine ⟨nodup_cat_dedupCatAux _ [], ?_, sublist_dedupCatAux _ [], ?_, ?_,
    fun s => by simpa using mem_dedupCatAux_first (keywordPass kws ++ topicPass tps) [] s,
    pairwise_firstIdx_dedupCatAux _ [], by decide⟩
  · have hsub : List.Sublist ((keywordPass kws).map (·.category))
        (categoryKeywords.map (·.1)) := by
      refine map_filterMap_sublist _ _ _ ?_ categoryKeywords
      intro a b hab
      rcases Option.map_eq_some'.1 hab with ⟨kw, hkw, rfl⟩
      rfl
    exact List.Nodup.sublist hsub (by decide)
  · rintro ⟨t, ht, hmem⟩
    have hc : (["beleid", "regelgeving", "bestuur"].any fun s => decide (s ∈ tps)) = true :=
      List.any_eq_true.2 ⟨t, hmem, decide_eq_true ht⟩
    have h4 : (⟨"4", catName "4", "Gerelateerd aan beleid en regelgeving"⟩ : Suggestion) ∈
        keywordPass kws ++ topicPass tps := by
      refine List.mem_append_right _ ?_
      unfold topicPass
      rw [if_pos hc]
      exact List.mem_append_left _ (List.mem_cons_self _ _)
    exact (mem_cat_dedupCatAux _ [] "4").2 ⟨List.mem_map_of_mem _ h4, by simp⟩
  · rintro ⟨t, ht, hmem⟩
    have hc : (["subsidie", "financiën"].any fun s => decide (s ∈ tps)) = true :=
      List.any_eq_true.2 ⟨t, hmem, decide_eq_true ht⟩
    have h1e : (⟨"1e", catName "1e", "Gerelateerd aan subsidies"⟩ : Suggestion) ∈
        keywordPass kws ++ topicPass tps := by
      refine List.mem_append_right _ ?_
      unfold topicPass
      refine List.mem_append_right _ ?_
      rw [if_pos hc]
      exact List.mem_cons_self _ _
    exact (mem_cat_dedupCatAux _ [] "1e").2 ⟨List.mem_map_of_mem _ h1e, by simp⟩

/-- Witness for C4: both topic rules fire on the topic set
["bestuur", "subsidie"]. -/
theorem C4_category_dedup_witness :
    "4" ∈ (suggest_woo_categories ["nota"] ["bestuur", "subsidie"]).map (·.category) ∧
    "1e" ∈ (suggest_woo_categories ["nota"] ["bestuur", "subsidie"]).map (·.category) :=
  ⟨(C4_category_dedup ["nota"] ["bestuur", "subsidie"]).2.2.2.1
      ⟨"bestuur", by decide, by decide⟩,
   (C4_category_dedup ["nota"] ["bestuur", "subsidie"]).2.2.2.2.1
      ⟨"subsidie", by decide, by decide⟩⟩

/-- Claim C5: `find_related_datasets` output is sorted non-increasing by
relevance, includes each topic-matching record with its full analysis
score, includes each keyword-only-matching record with score minus one,
and excludes records matching neither way. -/
theorem C5_find_related :
    ∀ (q : String) (ds : List Dataset),
      ((find_related_datasets q ds).Pairwise fun a b => b.relevance ≤ a.relevance) ∧
      ∀ d ∈ ds,
        (topicHit q d = true →
          ∃ e ∈ find_related_datasets q ds, e.dataset = d ∧
            e.relevance = ((analyze_dataset d).relevance_score : Int)) ∧
        (topicHit q d = false → keywordHit q d = true →
          ∃ e ∈ find_related_datasets q ds, e.dataset = d ∧
            e.relevance = ((analyze_dataset d).relevance_score : Int) - 1) ∧
        (topicHit q d = false → keywordHit q d = false →
          ∀ e ∈ find_related_datasets q ds, e.dataset ≠ d) := by
  intro q ds
  constructor
  · exact (pairwise_sortBy relLe relLe_total relLe_trans _).imp fun h => by
      simpa [relLe] using h
  · intro d hd
    refine ⟨?_, ?_, ?_⟩
    · intro htop
      refine ⟨⟨d, analyze_dataset d, ((analyze_dataset d).relevance_score : Int)⟩, ?_, rfl, rfl⟩
      rw [show find_related_datasets q ds = sortBy relLe (ds.filterMap (entryOf q)) from rfl,
        mem_sortBy]
      exact List.mem_filterMap.2 ⟨d, hd, by simp [entryOf, htop]⟩
    · intro htop hkw
      refine ⟨⟨d, analyze_dataset d, ((analyze_dataset d).relevance_score : Int) - 1⟩,
        ?_, rfl, rfl⟩
      rw [show find_related_datasets q ds = sortBy relLe (ds.filterMap (entryOf q)) from rfl,
        mem_sortBy]
      exact List.mem_filterMap.2 ⟨d, hd, by simp [entryOf, htop, hkw]⟩
    · intro htop hkw e he hed
      rw [show find_related_datasets q ds = sortBy relLe (ds.filterMap (entryOf q)) from rfl,
        mem_sortBy] at he
      obtain ⟨d2, hd2, hsome⟩ := List.mem_filterMap.1 he
      have hde : d = d2 := hed ▸ entryOf_dataset hsome
      rw [← hde] at hsome
      simp [entryOf, htop, hkw] at hsome

set_option maxRecDepth 100000 in
/-- Witness for C5: the example dataset of `woo_connector.main` matches the
topic query "milieu" and is returned with its full analysis score. -/
theorem C5_find_related_witness :
    ∃ e ∈ find_related_datasets "milieu" [dAfval], e.dataset = dAfval ∧
      e.relevance = ((analyze_dataset dAfval).relevance_score : Int) :=
  ((C5_find_related "milieu" [dAfval]).2 dAfval (by decide)).1 (by decide)

/-- Claim C10: the final descending sort of `find_related_datasets` is stable
with respect to insertion order: for every relevance value, the entries of
the output carrying that value coincide, in order, with the entries of the
pre-sort list, which is built by one pass over the input records. -/
theorem C10_stable_ranking (q : String) (ds : List Dataset) (v : Int) :
    (find_related_datasets q ds).filter (fun e => decide (e.relevance = v)) =
      (ds.filterMap (entryOf q)).filter (fun e => decide (e.relevance = v)) :=
  filter_sortBy_rel v (ds.filterMap (entryOf q))

/-- Claim C9: replaying every dict operation that `analyze_dataset` performs
on the record and on its nested attributes mapping — and every operation
`find_related_datasets` performs on a record across all its loop
iterations — leaves any dict unchanged: the traces consist of reads only. -/
theorem C9_no_record_mutation :
    ∀ o : Obj,
      applyOps o analyzeDatasetTrace = o ∧
      applyOps o analyzeAttrsTrace = o ∧
      ∀ n : Nat, applyOps o (findRelatedTrace n) = o := by
  intro o
  refine ⟨?_, ?_, ?_⟩
  · refine applyOps_of_reads _ ?_ o
    intro op hop
    simp [analyzeDatasetTrace] at hop
    rcases hop with rfl | rfl
    · exact ⟨_, rfl⟩
    · exact ⟨_, rfl⟩
  · refine applyOps_of_reads _ ?_ o
    intro op hop
    simp [analyzeAttrsTrace, getAttrTrace] at hop
    rcases hop with rfl | rfl | rfl | rfl | rfl | rfl | rfl | rfl | rfl <;> exact ⟨_, rfl⟩
  · intro n
    refine applyOps_of_reads _ ?_ o
    intro op hop
    obtain ⟨l, hl, hop⟩ := List.mem_flatten.1 hop
    obtain ⟨-, rfl⟩ := List.mem_replicate.1 hl
    simp [analyzeDatasetTrace] at hop
    rcases hop with rfl | rfl
    · exact ⟨_, rfl⟩
    · exact ⟨_, rfl⟩

/-- Counterexample for C8: the claim asserts that the attribute resolver
returns the value of the first PRESENT key among `dct:`, `dcat:`, `foaf:`
and the bare key. `WooConnector._get_attr` violates this: on a record with
a present-but-empty `dct:title` it skips the empty string and returns the
bare `title` value, and it never consults `foaf:`-prefixed keys at all. -/
theorem C8_resolver_counterexample :
    wooGetAttr c8Obj "title" ≠ resolveSpec c8Obj "title" ∧
    resolveSpec c8Obj "title" = Val.str "" ∧
    wooGetAttr c8Obj "title" = Val.str "fallback" ∧
    wooGetAttr [("foaf:name", Val.str "x")] "name" = Val.null ∧
    resolveSpec [("foaf:name", Val.str "x")] "name" = Val.str "x" := by decide

/-- Claim C8 (amended): `MCPServer.get_attr` resolves attributes exactly as
the spec's presence-governed contract prescribes (`dct:`, `dcat:`, `foaf:`,
bare key, `null` sentinel, no exception); `WooConnector._get_attr` instead
chains on truthiness over `dct:`, `dcat:` and the bare key only: a truthy
`dct:` value wins, else a truthy `dcat:` value, else the bare-key lookup
result. -/
theorem C8_resolver_amended :
    (∀ (o : Obj) (k : String), mcpGetAttr o k = resolveSpec o k) ∧
    (∀ (o : Obj) (k : String), truthy (objGet o ("dct:" ++ k)) = true →
      wooGetAttr o k = objGet o ("dct:" ++ k)) ∧
    (∀ (o : Obj) (k : String), truthy (objGet o ("dct:" ++ k)) = false →
      truthy (objGet o ("dcat:" ++ k)) = true →
      wooGetAttr o k = objGet o ("dcat:" ++ k)) ∧
    (∀ (o : Obj) (k : String), truthy (objGet o ("dct:" ++ k)) = false →
      truthy (objGet o ("dcat:" ++ k)) = false →
      wooGetAttr o k = objGet o k) := by
  refine ⟨fun o k => rfl, ?_, ?_, ?_⟩
  · intro o k h
    simp [wooGetAttr, h]
  · intro o k h1 h2
    simp [wooGetAttr, h1, h2]
  · intro o k h1 h2
    simp [wooGetAttr, h1, h2]

/-- Witness for the amended C8: a truthy `dct:` value is returned by
`WooConnector._get_attr`. -/
theorem C8_resolver_amended_witness :
    truthy (objGet [("dct:title", Val.str "T")] ("dct:" ++ "title")) = true ∧
    wooGetAttr [("dct:title", Val.str "T")] "title" =
      objGet [("dct:title", Val.str "T")] ("dct:" ++ "title") :=
  ⟨by decide, C8_resolver_amended.2.1 [("dct:title", Val.str "T")] "title" (by decide)⟩

/-- Claim C1: dispatch of a method outside the fixed method set yields a
`-32601` envelope; dispatch of `tools/call` with a tool name outside the
fixed tool table yields `-32602`; and a `tools/call` of `get_dataset`
whose arguments lack the required `dataset_id` is caught at the dispatch
boundary and converted into a `-32603` envelope carrying the underlying
`KeyError` message — always an error envelope, never an uncaught
exception, for every handler environment. -/
theorem C1_dispatch_error_codes :
    (∀ (env : Env) (rid : Option Nat) (p : Params) (m : String),
      m ∉ (["initialize", "tools/list", "tools/call", "resources/list",
            "resources/read"] : List String) →
      handle_request env ⟨some m, p, rid⟩ =
        Response.err rid (-32601) ("Method not found: " ++ m)) ∧
    (∀ (env : Env) (rid : Option Nat) (args : List (String × Val)) (n : String),
      n ∉ toolNames →
      handle_request env ⟨some "tools/call", ⟨some n, args, none⟩, rid⟩ =
        Response.err rid (-32602) ("Unknown tool: " ++ n)) ∧
    (∀ (env : Env) (rid : Option Nat) (args : List (String × Val)),
      List.lookup "dataset_id" args = none →
      handle_request env ⟨some "tools/call", ⟨some "get_dataset", args, none⟩, rid⟩ =
        Response.err rid (-32603) "Tool execution failed: \x27dataset_id\x27") := by
  refine ⟨?_, ?_, ?_⟩
  · intro env rid p m hm
    simp only [List.mem_cons, List.not_mem_nil, or_false] at hm
    push_neg at hm
    obtain ⟨h1, h2, h3, h4, h5⟩ := hm
    simp [handle_request, optText, h1, h2, h3, h4, h5]
  · intro env rid args n hn
    have g1 : n ≠ "search_datasets" := fun h => hn (by rw [h]; decide)
    have g2 : n ≠ "get_dataset" := fun h => hn (by rw [h]; decide)
    have g3 : n ≠ "get_distributions" := fun h => hn (by rw [h]; decide)
    have g4 : n ≠ "list_all_datasets" := fun h => hn (by rw [h]; decide)
    have g5 : n ≠ "analyze_woo_connection" := fun h => hn (by rw [h]; decide)
    have g6 : n ≠ "find_woo_related_datasets" := fun h => hn (by rw [h]; decide)
    have g7 : n ≠ "dataoverheid_search" := fun h => hn (by rw [h]; decide)
    have g8 : n ≠ "dataoverheid_get_dataset" := fun h => hn (by rw [h]; decide)
    have g9 : n ≠ "dataoverheid_list_organizations" := fun h => hn (by rw [h]; decide)
    have g10 : n ≠ "dataoverheid_get_organization" := fun h => hn (by rw [h]; decide)
    simp [handle_request, call_tool, optText, g1, g2, g3, g4, g5, g6, g7, g8, g9, g10]
  · intro env rid args h
    simp [handle_request, call_tool, runWrap, toolBody, h, quoteS]

/-- Witness for C1: an unknown method, an unknown tool and a missing
`dataset_id` each produce the claimed error envelope under the trivial
environment. -/
theorem C1_dispatch_error_codes_witness :
    handle_request env0 ⟨some "frobnicate", ⟨none, [], none⟩, some 1⟩ =
      Response.err (some 1) (-32601) ("Method not found: " ++ "frobnicate") ∧
    handle_request env0 ⟨some "tools/call", ⟨some "no_such_tool", [], none⟩, some 2⟩ =
      Response.err (some 2) (-32602) ("Unknown tool: " ++ "no_such_tool") ∧
    handle_request env0 ⟨some "tools/call", ⟨some "get_dataset", [], none⟩, some 3⟩ =
      Response.err (some 3) (-32603) "Tool execution failed: \x27dataset_id\x27" :=
  ⟨C1_dispatch_error_codes.1 env0 (some 1) ⟨none, [], none⟩ "frobnicate" (by decide),
   C1_dispatch_error_codes.2.1 env0 (some 2) [] "no_such_tool" (by decide),
   C1_dispatch_error_codes.2.2 env0 (some 3) [] (by decide)⟩

end UtrechtOD
